import Mathlib

/-!
Verification development for the WolfAlert repository: a shallow embedding of
the profile/article/insight data model (frontend `types/index.ts`), the API
client (`utils/api.ts`), the `StatsBar` component, the dashboard template,
and the content-ingestion / relevance-scoring pipeline described in the
design document (source registry → fetcher → dedup store → scorer →
assembler).  Timestamps are modelled as natural-number ticks and scores as
rationals.
-/

namespace WolfAlert

/-! ## Enumerations from `types/index.ts` -/

inductive Industry where
  | electric | broadband | municipal | technology | financial | healthcare
deriving DecidableEq, Repr

inductive Department where
  | engineering | marketing | sales | executive | operations | it | customer_service
deriving DecidableEq, Repr

inductive RoleLevel where
  | individual | manager | director | executive | c_level
deriving DecidableEq, Repr

inductive ImpactType where
  | threat | opportunity | watch
deriving DecidableEq, Repr

inductive SourceReliability where
  | high | medium | community
deriving DecidableEq, Repr

/-! ## Records from `types/index.ts` -/

structure UserProfile where
  id : String
  profile_name : String
  industry : Industry
  department : Department
  role_level : RoleLevel
  user_session_id : Option String
  is_active : Bool
deriving DecidableEq, Repr

structure Article where
  id : String
  url : String
  title : String
  content : String
  source_name : String
  source_reliability : SourceReliability
  published_at : Nat
  fetched_at : Nat
  expires_at : Nat
  is_processed : Bool
  processing_attempts : Nat
deriving DecidableEq, Repr

/-- The persisted `ArticleInsight` record of `types/index.ts`, extended with the
model-version component of the cache key required by §3 of the design document
("may be recomputed if the underlying prompt/model version changes
(invalidation key includes model version)"). -/
structure Insight where
  id : String
  article_id : String
  profile_hash : String
  model_version : Nat
  summary : String
  impact_reasoning : String
  impact_type : ImpactType
  impact_score : Rat
  processing_time_ms : Nat
  created_at : Nat
deriving DecidableEq, Repr

/-! ## Profile fingerprint -/

def industryKey : Industry → String
  | .electric => "electric"
  | .broadband => "broadband"
  | .municipal => "municipal"
  | .technology => "technology"
  | .financial => "financial"
  | .healthcare => "healthcare"

def departmentKey : Department → String
  | .engineering => "engineering"
  | .marketing => "marketing"
  | .sales => "sales"
  | .executive => "executive"
  | .operations => "operations"
  | .it => "it"
  | .customer_service => "customer_service"

def roleKey : RoleLevel → String
  | .individual => "individual"
  | .manager => "manager"
  | .director => "director"
  | .executive => "executive"
  | .c_level => "c_level"

/-- Modelled from the spec: the backend that computes the profile hash served by
`profileApi.getProfileHash` is not in `src/`; §3 of the design document states
"A stable fingerprint is derived deterministically from (industry, department,
role level)".  The fingerprint concatenates the three classification axes and
nothing else. -/
def profileFingerprint (p : UserProfile) : String :=
  industryKey p.industry ++ ":" ++ departmentKey p.department ++ ":" ++ roleKey p.role_level

/-! ## The article/insight store -/

/-- Modelled from the spec: the single authoritative store of §4.2, together
with the external-call counter used to state the cache-correctness and
single-flight budgets and the current model version of §3. -/
structure Store where
  articles : List Article
  insights : List Insight
  modelVersion : Nat
  externalCalls : Nat
deriving DecidableEq, Repr

def initStore : Store :=
  { articles := [], insights := [], modelVersion := 1, externalCalls := 0 }

def urlSeen (st : Store) (u : String) : Bool :=
  st.articles.any (fun a => a.url == u)

inductive IngestResult where
  | created | duplicate
deriving DecidableEq, Repr

/-- Modelled from the spec: §4.2 "Operation `ingest(candidate)`: returns
`created` if URL unseen, `duplicate` if already present (no-op, no error)";
the canonical URL is the dedup key. -/
def ingest (c : Article) (st : Store) : IngestResult × Store :=
  if urlSeen st c.url then (.duplicate, st)
  else (.created, { st with articles := c :: st.articles })

/-- Modelled from the spec: §4.1, re-ingesting a whole feed entry by entry
("entries whose canonical URL already exists in the Store are skipped"). -/
def ingestFeed (feed : List Article) (st : Store) : Store :=
  feed.foldl (fun s c => (ingest c s).2) st

/-! ## Relevance scorer -/

/-- Modelled from the spec: §6, the model provider returns "structured text
containing summary, reasoning, classification, score" which "the core must
parse ... defensively"; the classification arrives as raw text. -/
structure RawModelOutput where
  summary : String
  impact_reasoning : String
  classification : String
  score : Rat
deriving DecidableEq, Repr

def parseImpactType (s : String) : Option ImpactType :=
  if s == "threat" then some .threat
  else if s == "opportunity" then some .opportunity
  else if s == "watch" then some .watch
  else none

structure ValidatedOutput where
  summary : String
  impact_reasoning : String
  impact_type : ImpactType
  score : Rat
deriving DecidableEq, Repr

/-- Modelled from the spec: §4.3 step 3, "validate the score is within [0,1]
and classification is one of the three enum values". -/
def validateOutput (o : RawModelOutput) : Option ValidatedOutput :=
  match parseImpactType o.classification with
  | none => none
  | some t =>
    if 0 ≤ o.score ∧ o.score ≤ 1 then
      some { summary := o.summary, impact_reasoning := o.impact_reasoning,
             impact_type := t, score := o.score }
    else none

/-- Modelled from the spec: the external relevance-model provider of §6,
abstracted as a deterministic oracle from (article, fingerprint, attempt
index) to its raw structured output. -/
def ModelOracle : Type :=
  Article → String → Nat → RawModelOutput

def insightMatches (aid fp : String) (mv : Nat) (i : Insight) : Bool :=
  i.article_id == aid && i.profile_hash == fp && i.model_version == mv

/-- Modelled from the spec: §4.3 step 2, "Look up existing Insight for
(article.id, fingerprint, current model version)". -/
def lookupInsight (st : Store) (aid fp : String) : Option Insight :=
  st.insights.find? (insightMatches aid fp st.modelVersion)

def mkInsight (aid fp : String) (mv : Nat) (v : ValidatedOutput) : Insight :=
  { id := aid ++ ":" ++ fp, article_id := aid, profile_hash := fp,
    model_version := mv, summary := v.summary,
    impact_reasoning := v.impact_reasoning, impact_type := v.impact_type,
    impact_score := v.score, processing_time_ms := 0, created_at := 0 }

def persistInsight (st : Store) (i : Insight) : Store :=
  { st with insights := i :: st.insights }

/-- Modelled from the spec: §4.3 step 3 failure path, "mark the article's
processing-attempt counter and surface a scoring failure". -/
def markFailedAttempt (st : Store) (aid : String) : Store :=
  { st with articles := st.articles.map (fun a =>
      if a.id == aid then { a with processing_attempts := a.processing_attempts + 1 }
      else a) }

inductive ScoreResult where
  | success (i : Insight)
  | failure
deriving DecidableEq, Repr

/-- Modelled from the spec: §4.3 `score(article, profile)`: compute the
fingerprint; on a cache hit return the stored Insight with zero external
calls; on a miss invoke the model once, validate, retry once on malformed
output, persist the Insight on success, or record the failed attempt. -/
def score (oracle : ModelOracle) (st : Store) (a : Article) (p : UserProfile) :
    ScoreResult × Store :=
  let fp := profileFingerprint p
  match lookupInsight st a.id fp with
  | some i => (.success i, st)
  | none =>
    let st1 := { st with externalCalls := st.externalCalls + 1 }
    match validateOutput (oracle a fp 0) with
    | some v =>
      let i := mkInsight a.id fp st.modelVersion v
      (.success i, persistInsight st1 i)
    | none =>
      let st2 := { st1 with externalCalls := st1.externalCalls + 1 }
      match validateOutput (oracle a fp 1) with
      | some v =>
        let i := mkInsight a.id fp st.modelVersion v
        (.success i, persistInsight st2 i)
      | none => (.failure, markFailedAttempt st2 a.id)

/-! ## Reachable store states -/

def insightKey (i : Insight) : String × String × Nat :=
  (i.article_id, i.profile_hash, i.model_version)

def uniqueInsights (l : List Insight) : Prop :=
  l.Pairwise (fun i j => insightKey i ≠ insightKey j)

def scoresValid (l : List Insight) : Prop :=
  ∀ i ∈ l, 0 ≤ i.impact_score ∧ i.impact_score ≤ 1

/-- Modelled from the spec: the states the store can reach under the two
operations that write it, `ingest` (§4.2) and `score` (§4.3). -/
inductive Reachable : Store → Prop where
  | init : Reachable initStore
  | stepIngest (c : Article) {st : Store} :
      Reachable st → Reachable (ingest c st).2
  | stepScore (oracle : ModelOracle) (a : Article) (p : UserProfile) {st : Store} :
      Reachable st → Reachable (score oracle st a p).2

/-! ## Dashboard assembler -/

structure RankedAlert where
  article : Article
  insight : Insight
deriving DecidableEq, Repr

/-- Ranking order of §4.4: score descending, ties broken by more-recent
publish time.  `rankGE x y` holds when `x` may come before `y`. -/
def rankGE (x y : RankedAlert) : Prop :=
  y.insight.impact_score < x.insight.impact_score ∨
    (x.insight.impact_score = y.insight.impact_score ∧
      y.article.published_at ≤ x.article.published_at)

instance : DecidableRel rankGE := fun x y =>
  inferInstanceAs (Decidable (_ ∨ _ ∧ _))

instance : IsTotal RankedAlert rankGE where
  total x y := by
    rcases lt_trichotomy x.insight.impact_score y.insight.impact_score with h | h | h
    · exact Or.inr (Or.inl h)
    · rcases Nat.le_total y.article.published_at x.article.published_at with h2 | h2
      · exact Or.inl (Or.inr ⟨h, h2⟩)
      · exact Or.inr (Or.inr ⟨h.symm, h2⟩)
    · exact Or.inl (Or.inl h)

instance : IsTrans RankedAlert rankGE where
  trans x y z hxy hyz := by
    rcases hxy with h1 | ⟨h1, h1t⟩ <;> rcases hyz with h2 | ⟨h2, h2t⟩
    · exact Or.inl (h2.trans h1)
    · exact Or.inl (h2 ▸ h1)
    · exact Or.inl (h1 ▸ h2)
    · exact Or.inr ⟨h1.trans h2, h2t.trans h1t⟩

/-- Modelled from the spec: §4.4, the unexpired scored Insights of one
fingerprint at the current model version, each paired with its Article. -/
def eligibleAlerts (st : Store) (fp : String) (now : Nat) : List RankedAlert :=
  st.insights.filterMap (fun i =>
    if i.profile_hash == fp && i.model_version == st.modelVersion then
      match st.articles.find? (fun a => a.id == i.article_id) with
      | some a => if now < a.expires_at then some ⟨a, i⟩ else none
      | none => none
    else none)

structure DashboardView where
  primary_alert : Option RankedAlert
  secondary_alerts : List RankedAlert
  threats : Nat
  opportunities : Nat
  watch : Nat
  total_alerts : Nat
deriving DecidableEq, Repr

/-- Modelled from the spec: §4.4, "return the top-ranked unexpired Insights
(by score descending, ties broken by more-recent publish time) partitioned
into a primary (highest score) alert and a bounded list of secondary alerts,
plus aggregate counts per classification".  A pure read of the store:
it takes no model oracle and returns no store. -/
def assembleFp (st : Store) (fp : String) (now bound : Nat) : DashboardView :=
  let ranked := List.insertionSort rankGE (eligibleAlerts st fp now)
  { primary_alert := ranked.head?
    secondary_alerts := ranked.tail.take bound
    threats := ranked.countP (fun x => x.insight.impact_type == .threat)
    opportunities := ranked.countP (fun x => x.insight.impact_type == .opportunity)
    watch := ranked.countP (fun x => x.insight.impact_type == .watch)
    total_alerts := ranked.length }

/-- Modelled from the spec: §4.4 entry point, keyed by the profile's
fingerprint. -/
def assemble (st : Store) (p : UserProfile) (now bound : Nat) : DashboardView :=
  assembleFp st (profileFingerprint p) now bound

/-! ## Dashboard template (`templates/dashboard.html`) -/

inductive Badge where
  | analyzed | pending
deriving DecidableEq, Repr

structure RecentEntry where
  title : String
  badge : Badge
deriving DecidableEq, Repr

/-- Embeds the `recent_articles` loop of `templates/dashboard.html`: every
article in the list is rendered, with badge "Analyzed" when
`article.processed` and "Pending" otherwise. -/
def renderRecentArticles (recent : List Article) : List RecentEntry :=
  recent.map (fun a =>
    { title := a.title, badge := if a.is_processed then .analyzed else .pending })

/-! ## API client (`utils/api.ts`) -/

/-- The `ApiError` class: message, HTTP status and the `name` field set to
"ApiError" by the constructor. -/
structure ApiError where
  message : String
  status : Nat
  name : String
deriving DecidableEq, Repr

def mkApiError (message : String) (status : Nat) : ApiError :=
  { message := message, status := status, name := "ApiError" }

/-- One HTTP response as observed by `apiRequest`: the `ok` flag, the status
code, and the decoded body (with the optional `detail` and `message` fields
read from it). -/
structure HttpResponse where
  ok : Bool
  status : Nat
  detail : Option String
  message : Option String
  body : String
deriving DecidableEq, Repr

/-- What one `fetch` attempt can do: deliver a response whose body decodes,
throw while reading the body, or throw from `fetch` itself (network error,
timeout, abort). -/
inductive FetchOutcome where
  | success (resp : HttpResponse)
  | bodyReadFailure (status : Nat) (ok : Bool)
  | networkFailure (e : String)
deriving DecidableEq, Repr

inductive Thrown where
  | api (e : ApiError)
  | other (e : String)
deriving DecidableEq, Repr

/-- JavaScript `a || b` on strings: the empty string is falsy. -/
def jsStringOr (s : Option String) (fallback : String) : String :=
  match s with
  | some v => if v == "" then fallback else v
  | none => fallback

/-- The error message built at the `throw new ApiError(...)` site:
`data?.detail || data?.message || ` followed by the HTTP status. -/
def errorMessageOf (resp : HttpResponse) : String :=
  jsStringOr resp.detail (jsStringOr resp.message ("HTTP " ++ toString resp.status))

/-- The `try` block of `apiRequest`: return the body on `response.ok`, throw
an `ApiError` carrying `response.status` otherwise; body-read and network
failures throw non-`ApiError` values. -/
def tryBlock (o : FetchOutcome) : Except Thrown String :=
  match o with
  | .success resp =>
    if resp.ok then .ok resp.body
    else .error (.api (mkApiError (errorMessageOf resp) resp.status))
  | .bodyReadFailure _ _ => .error (.other "body read failed")
  | .networkFailure e => .error (.other e)

/-- `apiRequest` of `utils/api.ts`: the `try` block wrapped in the `catch`
that rethrows `ApiError`s unchanged and converts every other thrown value to
an `ApiError` with status 0. -/
def apiRequest (endpoint : String) (o : FetchOutcome) : Except ApiError String :=
  match tryBlock o with
  | .ok d => .ok d
  | .error (.api e) => .error e
  | .error (.other _) =>
    .error (mkApiError "Network error - please check your connection" 0)

/-- `profileApi.getProfile`: one `apiRequest` against the profile endpoint,
with `world` giving the fetch outcome per endpoint. -/
def profileApi_getProfile (profileId : String) (world : String → FetchOutcome) :
    Except ApiError String :=
  apiRequest ("/api/profiles/" ++ profileId) (world ("/api/profiles/" ++ profileId))

/-- `profileApi.getProfileHash`: one `apiRequest` against the hash endpoint. -/
def profileApi_getProfileHash (profileId : String) (world : String → FetchOutcome) :
    Except ApiError String :=
  apiRequest ("/api/profiles/" ++ profileId ++ "/hash")
    (world ("/api/profiles/" ++ profileId ++ "/hash"))

/-- `healthApi.checkHealth`: one `apiRequest` against `/health`. -/
def healthApi_checkHealth (world : String → FetchOutcome) : Except ApiError String :=
  apiRequest "/health" (world "/health")

/-! ## `StatsBar` widths (JavaScript number semantics) -/

/-- The `DashboardStats` record of `types/index.ts`. -/
structure DashboardStats where
  threats : Nat
  opportunities : Nat
  watch : Nat
  total_alerts : Nat
deriving DecidableEq, Repr

/-- The JavaScript number values reachable in the `StatsBar` width
computation: a finite value, positive infinity, or `NaN`. -/
inductive JSNum where
  | num (q : Rat)
  | inf
  | nan
deriving DecidableEq, Repr

/-- JavaScript division of two non-negative integers:
`a / 0` is `Infinity` for `a > 0` and `NaN` for `a = 0`. -/
def jsDivNat (a b : Nat) : JSNum :=
  if b = 0 then (if a = 0 then .nan else .inf) else .num ((a : Rat) / (b : Rat))

/-- JavaScript multiplication by the literal 100. -/
def jsMul100 : JSNum → JSNum
  | .num q => .num (q * 100)
  | .inf => .inf
  | .nan => .nan

/-- `Math.min(x, c)` for finite non-negative `c`: `NaN` absorbs,
`Infinity` is capped at `c`. -/
def jsMin (x : JSNum) (c : Rat) : JSNum :=
  match x with
  | .num q => .num (min q c)
  | .inf => .num c
  | .nan => .nan

/-- The width expression of `StatsBar`:
`Math.min((item.value / stats.total_alerts) * 100, 100)`. -/
def statWidth (value total : Nat) : JSNum :=
  jsMin (jsMul100 (jsDivNat value total)) 100

/-- The three per-category progress-bar widths rendered by `StatsBar`
(the `total_alerts` item renders no bar). -/
def statsBarWidths (s : DashboardStats) : JSNum × JSNum × JSNum :=
  (statWidth s.threats s.total_alerts,
   statWidth s.opportunities s.total_alerts,
   statWidth s.watch s.total_alerts)

/-! ## Single-flight scoring (one key) -/

/-- Modelled from the spec: §4.3 and §9, the key-based in-flight registry for
one (article, fingerprint) key: whether a computation is in flight, the cached
result once complete, the callers awaiting the in-flight computation, the
external calls issued, and the results delivered to callers. -/
structure SFState where
  cached : Option Insight
  inFlight : Bool
  waiters : List Nat
  externalCalls : Nat
  delivered : List (Nat × Insight)
deriving DecidableEq, Repr

def sfInit : SFState :=
  { cached := none, inFlight := false, waiters := [], externalCalls := 0,
    delivered := [] }

/-- Modelled from the spec: the interleaved transitions of concurrent
`score()` callers for one key whose computation yields `ins`.  A caller that
arrives after completion is served from the cache; a caller that arrives while
a computation is in flight joins it; the first caller starts the computation
and issues the one external call; completion delivers the shared result to
every waiter and fills the cache. -/
inductive SFStep (ins : Insight) : SFState → SFState → Prop where
  | arriveHit (s : SFState) (i : Nat) (r : Insight) (h : s.cached = some r) :
      SFStep ins s { s with delivered := (i, r) :: s.delivered }
  | arriveJoin (s : SFState) (i : Nat) (h1 : s.cached = none) (h2 : s.inFlight = true) :
      SFStep ins s { s with waiters := i :: s.waiters }
  | arriveStart (s : SFState) (i : Nat) (h1 : s.cached = none) (h2 : s.inFlight = false) :
      SFStep ins s { s with inFlight := true, waiters := [i],
                            externalCalls := s.externalCalls + 1 }
  | complete (s : SFState) (h : s.inFlight = true) :
      SFStep ins s { s with inFlight := false, cached := some ins,
                            delivered := s.waiters.map (fun i => (i, ins)) ++ s.delivered,
                            waiters := [] }

/-- States reachable by any interleaving of arrivals and completion. -/
inductive SFReach (ins : Insight) : SFState → Prop where
  | init : SFReach ins sfInit
  | step {s t : SFState} : SFReach ins s → SFStep ins s t → SFReach ins t

/-! ## Concrete data (from `mockDashboardData` in the dashboard page, with
timestamps in hour ticks: the mock publishes 2, 4 and 6 hours before "now") -/

def mockArticle1 : Article :=
  { id := "1", url := "https://openai.com/blog/example",
    title := "OpenAI Launches Advanced Customer Service AI That Outperforms Human Agents",
    content := "Sample content...", source_name := "OpenAI Blog",
    source_reliability := .high, published_at := 998, fetched_at := 1000,
    expires_at := 1720, is_processed := true, processing_attempts := 1 }

def mockArticle2 : Article :=
  { id := "2", url := "https://google.com/blog/example",
    title := "Google Releases Free AI Marketing Attribution Tool for SMBs",
    content := "Sample content...", source_name := "Google Blog",
    source_reliability := .high, published_at := 996, fetched_at := 1000,
    expires_at := 1720, is_processed := true, processing_attempts := 1 }

def mockArticle3 : Article :=
  { id := "3", url := "https://microsoft.com/blog/example",
    title := "Microsoft Copilot Integrates with Salesforce and HubSpot",
    content := "Sample content...", source_name := "Microsoft Blog",
    source_reliability := .high, published_at := 994, fetched_at := 1000,
    expires_at := 1720, is_processed := true, processing_attempts := 1 }

def mockInsight1 : Insight :=
  { id := "1", article_id := "1", profile_hash := "abc123", model_version := 1,
    summary := "CRM integration summary", impact_reasoning := "threat reasoning",
    impact_type := .threat, impact_score := mkRat 94 100,
    processing_time_ms := 1500, created_at := 1000 }

def mockInsight2 : Insight :=
  { id := "2", article_id := "2", profile_hash := "abc123", model_version := 1,
    summary := "attribution tool summary", impact_reasoning := "opportunity reasoning",
    impact_type := .opportunity, impact_score := mkRat 78 100,
    processing_time_ms := 1200, created_at := 1000 }

def mockInsight3 : Insight :=
  { id := "3", article_id := "3", profile_hash := "abc123", model_version := 1,
    summary := "Copilot integration summary", impact_reasoning := "watch reasoning",
    impact_type := .watch, impact_score := mkRat 65 100,
    processing_time_ms := 1100, created_at := 1000 }

def mockStore : Store :=
  { articles := [mockArticle1, mockArticle2, mockArticle3],
    insights := [mockInsight1, mockInsight2, mockInsight3],
    modelVersion := 1, externalCalls := 0 }

/-- An unprocessed article, as rendered by the dashboard template. -/
def pendingArticle : Article :=
  { id := "9", url := "https://example.com/unscored",
    title := "Unscored development", content := "Raw content",
    source_name := "Example Feed", source_reliability := .medium,
    published_at := 990, fetched_at := 1000, expires_at := 1720,
    is_processed := false, processing_attempts := 0 }

def demoInsight : Insight :=
  mkInsight "1" "technology:marketing:manager" 1
    { summary := "demo", impact_reasoning := "demo", impact_type := .watch,
      score := 1 / 2 }

/-- A store holding one scored Insight keyed by `mockProfile`'s fingerprint. -/
def fpStore : Store :=
  { articles := [mockArticle1],
    insights := [{ mockInsight1 with profile_hash := "technology:marketing:manager" }],
    modelVersion := 1, externalCalls := 0 }

def mockProfile : UserProfile :=
  { id := "1", profile_name := "Marketing - SaaS - Mid-level",
    industry := .technology, department := .marketing, role_level := .manager,
    user_session_id := none, is_active := true }

/-- A well-behaved model oracle: every call returns a parsable classification
and an in-range score. -/
def demoOracle : ModelOracle :=
  fun _ _ _ =>
    { summary := "demo summary", impact_reasoning := "demo reasoning",
      classification := "watch", score := 1 }

def demoValidated : ValidatedOutput :=
  { summary := "demo summary", impact_reasoning := "demo reasoning",
    impact_type := .watch, score := 1 }

def demoStoredInsight : Insight :=
  mkInsight "1" "technology:marketing:manager" 1 demoValidated

/-- The single-flight state after callers 0 and 1 raced and the shared
computation completed. -/
def sfDemo : SFState :=
  { cached := some demoInsight, inFlight := false, waiters := [],
    externalCalls := 1,
    delivered := [(1, demoInsight), (0, demoInsight)] }

/-- Inductive invariant of the single-flight machine: the external-call count
is exactly one once a computation has started or finished, the cache can only
hold the shared result, and every delivered result is the shared result. -/
def SFInv (ins : Insight) (s : SFState) : Prop :=
  s.externalCalls = (if s.inFlight || s.cached.isSome then 1 else 0) ∧
  (∀ r, s.cached = some r → r = ins) ∧
  (∀ pr ∈ s.delivered, pr.2 = ins) ∧
  (s.delivered ≠ [] → s.inFlight = true ∨ s.cached.isSome = true)

/-- A second profile sharing `mockProfile`'s classification axes but differing
in id, name and session owner. -/
def mockProfile2 : UserProfile :=
  { id := "2", profile_name := "Another profile", industry := .technology,
    department := .marketing, role_level := .manager,
    user_session_id := some "other-session", is_active := false }

/-- The single alert assembled from `fpStore`. -/
def fpAlert : RankedAlert :=
  { article := mockArticle1,
    insight := { mockInsight1 with profile_hash := "technology:marketing:manager" } }

/-- A 404 response with no decoded detail or message fields. -/
def notFoundResp : HttpResponse :=
  { ok := false, status := 404, detail := none, message := none, body := "" }

/-! ## Helper lemmas -/

theorem impactType_cases (t : ImpactType) :
    t = .threat ∨ t = .opportunity ∨ t = .watch := by
  cases t <;> simp

theorem ingest_insights_eq (c : Article) (st : Store) :
    ((ingest c st).2).insights = st.insights := by
  unfold ingest
  split <;> rfl

theorem lookupInsight_none_key {st : Store} {aid fp : String}
    (h : lookupInsight st aid fp = none) :
    ∀ i ∈ st.insights, insightKey i ≠ (aid, fp, st.modelVersion) := by
  intro i hi hkey
  unfold lookupInsight at h
  have hm := List.find?_eq_none.mp h i hi
  apply hm
  simp only [insightKey, Prod.mk.injEq] at hkey
  simp [insightMatches, hkey.1, hkey.2.1, hkey.2.2]

theorem score_insights_cases (oracle : ModelOracle) (st : Store) (a : Article)
    (p : UserProfile) :
    ((score oracle st a p).2).insights = st.insights ∨
    ∃ v : ValidatedOutput,
      (validateOutput (oracle a (profileFingerprint p) 0) = some v ∨
        validateOutput (oracle a (profileFingerprint p) 1) = some v) ∧
      lookupInsight st a.id (profileFingerprint p) = none ∧
      ((score oracle st a p).2).insights =
        mkInsight a.id (profileFingerprint p) st.modelVersion v :: st.insights := by
  cases h0 : lookupInsight st a.id (profileFingerprint p) with
  | some i => left; simp [score, h0]
  | none =>
    cases h1 : validateOutput (oracle a (profileFingerprint p) 0) with
    | some v =>
      right
      exact ⟨v, Or.inl rfl, rfl, by simp [score, h0, h1, persistInsight]⟩
    | none =>
      cases h2 : validateOutput (oracle a (profileFingerprint p) 1) with
      | some v =>
        right
        exact ⟨v, Or.inr rfl, rfl, by simp [score, h0, h1, h2, persistInsight]⟩
      | none => left; simp [score, h0, h1, h2, markFailedAttempt]

theorem validateOutput_some_bounds {o : RawModelOutput} {v : ValidatedOutput}
    (h : validateOutput o = some v) : 0 ≤ v.score ∧ v.score ≤ 1 := by
  unfold validateOutput at h
  split at h
  · exact absurd h (by simp)
  · split at h
    · rename_i hc
      cases h
      exact hc
    · exact absurd h (by simp)

/-! ## C1: uniqueness of the Insight cache key -/

/-- C1: in every reachable state of the store there is at most one Insight per
(article id, profile fingerprint, model version) triple, and `score` — the one
operation that persists Insights — preserves this uniqueness from any store
satisfying it. -/
theorem insight_key_uniqueness :
    (∀ (oracle : ModelOracle) (st : Store) (a : Article) (p : UserProfile),
       uniqueInsights st.insights →
       uniqueInsights ((score oracle st a p).2).insights) ∧
    (∀ st : Store, Reachable st → uniqueInsights st.insights) := by
  have hpres : ∀ (oracle : ModelOracle) (st : Store) (a : Article) (p : UserProfile),
      uniqueInsights st.insights →
      uniqueInsights ((score oracle st a p).2).insights := by
    intro oracle st a p hu
    rcases score_insights_cases oracle st a p with heq | ⟨v, _, hnone, heq⟩
    · rw [heq]; exact hu
    · rw [heq]
      refine List.Pairwise.cons ?_ hu
      intro j hj hkeq
      apply lookupInsight_none_key hnone j hj
      rw [← hkeq]
      rfl
  refine ⟨hpres, ?_⟩
  intro st h
  induction h with
  | init => exact List.Pairwise.nil
  | stepIngest c h ih => rw [uniqueInsights, ingest_insights_eq]; exact ih
  | stepScore oracle a p h ih => exact hpres oracle _ a p ih

theorem insight_key_uniqueness_witness :
    uniqueInsights ((score demoOracle initStore mockArticle1 mockProfile).2).insights ∧
    uniqueInsights initStore.insights :=
  ⟨insight_key_uniqueness.1 demoOracle initStore mockArticle1 mockProfile
      List.Pairwise.nil,
    insight_key_uniqueness.2 initStore Reachable.init⟩

/-! ## C2: score bounds and classification enum -/

/-- C2: any model output with an out-of-range score is rejected by validation
before persistence, and in every reachable store every persisted Insight has
an impact score in [0,1] and a classification among the three enum values. -/
theorem insight_scores_bounded :
    (∀ o : RawModelOutput, (o.score < 0 ∨ 1 < o.score) → validateOutput o = none) ∧
    (∀ st : Store, Reachable st → ∀ i ∈ st.insights,
       (0 ≤ i.impact_score ∧ i.impact_score ≤ 1) ∧
       (i.impact_type = .threat ∨ i.impact_type = .opportunity ∨
         i.impact_type = .watch)) := by
  constructor
  · intro o ho
    unfold validateOutput
    cases hp : parseImpactType o.classification with
    | none => rfl
    | some t =>
      have hno : ¬(0 ≤ o.score ∧ o.score ≤ 1) := by
        rcases ho with h | h
        · intro hc; exact absurd hc.1 (not_le.mpr h)
        · intro hc; exact absurd hc.2 (not_le.mpr h)
      simp [hno]
  · intro st h
    induction h with
    | init => intro i hi; exact absurd hi (by simp [initStore])
    | stepIngest c h ih => rw [ingest_insights_eq]; exact ih
    | stepScore oracle a p h ih =>
      rcases score_insights_cases oracle _ a p with heq | ⟨v, hv, _, heq⟩
      · rw [heq]; exact ih
      · rw [heq]
        intro i hi
        rcases List.mem_cons.mp hi with hnew | hold
        · subst hnew
          have hb : 0 ≤ v.score ∧ v.score ≤ 1 := by
            rcases hv with hv | hv
            · exact validateOutput_some_bounds hv
            · exact validateOutput_some_bounds hv
          exact ⟨hb, impactType_cases _⟩
        · exact ih i hold

theorem insight_scores_bounded_witness :
    (0 ≤ demoStoredInsight.impact_score ∧ demoStoredInsight.impact_score ≤ 1) ∧
    (demoStoredInsight.impact_type = .threat ∨
      demoStoredInsight.impact_type = .opportunity ∨
      demoStoredInsight.impact_type = .watch) :=
  insight_scores_bounded.2 _
    (Reachable.stepScore demoOracle mockArticle1 mockProfile Reachable.init)
    demoStoredInsight (List.mem_cons_self _ _)

/-! ## C3: sequential cache correctness of score -/

/-- C3: on a cache miss with well-formed model output, the first `score` call
invokes the model once (the call counter rises by exactly one) and persists
the Insight; the immediately following `score` call for the same (article,
profile) finds that Insight and returns it unchanged, with zero further
external calls — so two sequential calls perform exactly one external model
call in total. -/
theorem score_cache_correctness (oracle : ModelOracle) (st : Store) (a : Article)
    (p : UserProfile) (v : ValidatedOutput)
    (hmiss : lookupInsight st a.id (profileFingerprint p) = none)
    (hvalid : validateOutput (oracle a (profileFingerprint p) 0) = some v) :
    ((score oracle st a p).2).externalCalls = st.externalCalls + 1 ∧
    (score oracle st a p).1 =
      .success (mkInsight a.id (profileFingerprint p) st.modelVersion v) ∧
    score oracle ((score oracle st a p).2) a p =
      ((score oracle st a p).1, (score oracle st a p).2) := by
  have h1 : score oracle st a p =
      (.success (mkInsight a.id (profileFingerprint p) st.modelVersion v),
        persistInsight { st with externalCalls := st.externalCalls + 1 }
          (mkInsight a.id (profileFingerprint p) st.modelVersion v)) := by
    simp [score, hmiss, hvalid]
  have hhit : lookupInsight
      (persistInsight { st with externalCalls := st.externalCalls + 1 }
        (mkInsight a.id (profileFingerprint p) st.modelVersion v))
      a.id (profileFingerprint p) =
      some (mkInsight a.id (profileFingerprint p) st.modelVersion v) := by
    unfold lookupInsight persistInsight
    exact List.find?_cons_of_pos _ (by simp [insightMatches, mkInsight])
  refine ⟨?_, ?_, ?_⟩
  · rw [h1]; rfl
  · rw [h1]
  · rw [h1]
    simp [score, hhit]

theorem score_cache_correctness_witness :
    ((score demoOracle initStore mockArticle1 mockProfile).2).externalCalls =
      initStore.externalCalls + 1 ∧
    (score demoOracle initStore mockArticle1 mockProfile).1 =
      .success (mkInsight mockArticle1.id (profileFingerprint mockProfile)
        initStore.modelVersion demoValidated) ∧
    score demoOracle ((score demoOracle initStore mockArticle1 mockProfile).2)
        mockArticle1 mockProfile =
      ((score demoOracle initStore mockArticle1 mockProfile).1,
        (score demoOracle initStore mockArticle1 mockProfile).2) :=
  score_cache_correctness demoOracle initStore mockArticle1 mockProfile
    demoValidated rfl rfl

/-! ## C5: ingest dedup and idempotence -/

theorem urlSeen_ingest_mono {st : Store} {u : String} (c : Article)
    (h : urlSeen st u = true) : urlSeen ((ingest c st).2) u = true := by
  unfold ingest
  split
  · exact h
  · unfold urlSeen at h ⊢
    simp only [List.any_cons, Bool.or_eq_true]
    exact Or.inr h

theorem urlSeen_ingestFeed_mono {u : String} (feed : List Article) :
    ∀ st : Store, urlSeen st u = true → urlSeen (ingestFeed feed st) u = true := by
  induction feed with
  | nil => intro st h; exact h
  | cons c feed ih =>
    intro st h
    exact ih _ (urlSeen_ingest_mono c h)

theorem urlSeen_ingest_self (c : Article) (st : Store) :
    urlSeen ((ingest c st).2) c.url = true := by
  unfold ingest
  split
  · rename_i h; exact h
  · unfold urlSeen
    simp

theorem feed_urls_seen (feed : List Article) :
    ∀ st : Store, ∀ c ∈ feed, urlSeen (ingestFeed feed st) c.url = true := by
  induction feed with
  | nil => intro st c hc; exact absurd hc (by simp)
  | cons d feed ih =>
    intro st c hc
    rcases List.mem_cons.mp hc with rfl | hc
    · exact urlSeen_ingestFeed_mono feed _ (urlSeen_ingest_self c st)
    · exact ih _ c hc

theorem ingestFeed_fixed (feed : List Article) :
    ∀ st : Store, (∀ c ∈ feed, urlSeen st c.url = true) → ingestFeed feed st = st := by
  induction feed with
  | nil => intro st _; rfl
  | cons d feed ih =>
    intro st h
    have hd : (ingest d st).2 = st := by
      unfold ingest
      rw [if_pos (h d (by simp))]
    show ingestFeed feed (ingest d st).2 = st
    rw [hd]
    exact ih st (fun c hc => h c (List.mem_cons_of_mem d hc))

theorem score_article_urls (oracle : ModelOracle) (st : Store) (a : Article)
    (p : UserProfile) :
    ((score oracle st a p).2).articles.map Article.url =
      st.articles.map Article.url := by
  cases h0 : lookupInsight st a.id (profileFingerprint p) with
  | some i => simp [score, h0]
  | none =>
    cases h1 : validateOutput (oracle a (profileFingerprint p) 0) with
    | some v => simp [score, h0, h1, persistInsight]
    | none =>
      cases h2 : validateOutput (oracle a (profileFingerprint p) 1) with
      | some v => simp [score, h0, h1, h2, persistInsight]
      | none =>
        simp only [score, h0, h1, h2, markFailedAttempt, List.map_map]
        exact List.map_congr_left (fun x _ => by
          simp only [Function.comp_apply]
          split <;> rfl)

theorem urlSeen_false_not_mem {st : Store} {u : String}
    (h : urlSeen st u = false) : ∀ a ∈ st.articles, a.url ≠ u := by
  intro a ha
  unfold urlSeen at h
  have := List.any_eq_false.mp h a ha
  simpa using this

/-- C5: `ingest` returns `created` exactly when the candidate's canonical URL
is unseen (adding the one new Article row), returns `duplicate` with the store
unchanged when the URL is present, re-ingesting a whole feed is idempotent,
and every reachable store has pairwise-distinct article URLs (zero duplicate
rows). -/
theorem ingest_dedup_idempotent :
    (∀ (c : Article) (st : Store),
       ((ingest c st).1 = .created ↔ urlSeen st c.url = false) ∧
       ((ingest c st).1 = .duplicate → (ingest c st).2 = st) ∧
       ((ingest c st).1 = .created →
         ((ingest c st).2).articles = c :: st.articles)) ∧
    (∀ (feed : List Article) (st : Store),
       ingestFeed feed (ingestFeed feed st) = ingestFeed feed st) ∧
    (∀ st : Store, Reachable st → (st.articles.map Article.url).Nodup) := by
  refine ⟨?_, ?_, ?_⟩
  · intro c st
    refine ⟨?_, ?_, ?_⟩
    · unfold ingest
      split
      · rename_i h
        simp [h]
      · rename_i h
        simp [Bool.of_not_eq_true h]
    · unfold ingest
      split
      · intro _; rfl
      · intro h; exact absurd h (by simp)
    · unfold ingest
      split
      · intro h; exact absurd h (by simp)
      · intro _; rfl
  · intro feed st
    exact ingestFeed_fixed feed _ (feed_urls_seen feed st)
  · intro st h
    induction h with
    | init => exact List.nodup_nil
    | stepIngest c h ih =>
      unfold ingest
      split
      · exact ih
      · rename_i hseen
        simp only [List.map_cons, List.nodup_cons]
        refine ⟨?_, ih⟩
        intro hmem
        rcases List.mem_map.mp hmem with ⟨b, hb, hbu⟩
        exact urlSeen_false_not_mem (Bool.of_not_eq_true hseen) b hb hbu
    | stepScore oracle a p h ih =>
      rw [score_article_urls]
      exact ih

theorem ingest_dedup_idempotent_witness :
    ((ingest mockArticle1 initStore).1 = .created ↔
      urlSeen initStore mockArticle1.url = false) ∧
    ingestFeed [mockArticle1, mockArticle1]
        (ingestFeed [mockArticle1, mockArticle1] initStore) =
      ingestFeed [mockArticle1, mockArticle1] initStore ∧
    ((((ingest mockArticle1 initStore).2).articles.map Article.url).Nodup) :=
  ⟨(ingest_dedup_idempotent.1 mockArticle1 initStore).1,
    ingest_dedup_idempotent.2.1 [mockArticle1, mockArticle1] initStore,
    ingest_dedup_idempotent.2.2 _ (Reachable.stepIngest mockArticle1 Reachable.init)⟩

/-! ## C4: single-flight concurrency -/

theorem sf_step_inv {ins : Insight} {s t : SFState} (hstep : SFStep ins s t)
    (hinv : SFInv ins s) : SFInv ins t := by
  obtain ⟨hc, hcache, hdel, hne⟩ := hinv
  cases hstep with
  | arriveHit i r h =>
    refine ⟨hc, hcache, ?_, ?_⟩
    · intro pr hpr
      rcases List.mem_cons.mp hpr with rfl | hpr
      · exact hcache r h
      · exact hdel pr hpr
    · intro _
      right
      show s.cached.isSome = true
      rw [h]
      rfl
  | arriveJoin i h1 h2 => exact ⟨hc, hcache, hdel, hne⟩
  | arriveStart i h1 h2 =>
    have hc0 : s.externalCalls = 0 := by
      rw [h1, h2] at hc
      simpa using hc
    refine ⟨?_, ?_, hdel, ?_⟩
    · show s.externalCalls + 1 = if (true || s.cached.isSome) = true then 1 else 0
      rw [hc0]
      rfl
    · intro r hr
      have hr2 : s.cached = some r := hr
      rw [h1] at hr2
      exact absurd hr2 (by simp)
    · intro _
      left
      rfl
  | complete h =>
    have hc1 : s.externalCalls = 1 := by
      rw [h] at hc
      simpa using hc
    refine ⟨?_, ?_, ?_, ?_⟩
    · show s.externalCalls = if (false || (some ins).isSome) = true then 1 else 0
      rw [hc1]
      rfl
    · intro r hr
      have hr2 : some ins = some r := hr
      exact (Option.some.inj hr2).symm
    · intro pr hpr
      rcases List.mem_append.mp hpr with hpr | hpr
      · rcases List.mem_map.mp hpr with ⟨j, _, rfl⟩
        rfl
      · exact hdel pr hpr
    · intro _
      right
      rfl

theorem sfReach_inv {ins : Insight} {s : SFState} (h : SFReach ins s) :
    SFInv ins s := by
  induction h with
  | init =>
    refine ⟨rfl, ?_, ?_, ?_⟩
    · intro r hr; exact absurd hr (by simp [sfInit])
    · intro pr hpr; exact absurd hpr (by simp [sfInit])
    · intro hne; exact absurd rfl hne
  | step hr hstep ih => exact sf_step_inv hstep ih

/-- C4: in every interleaving of concurrent `score()` callers for one
(article, fingerprint) key, once any caller has received a result, exactly
one external model call has been issued, and every caller that has received a
result received the identical shared Insight. -/
theorem score_single_flight (ins : Insight) (s : SFState)
    (h : SFReach ins s) (hne : s.delivered ≠ []) :
    s.externalCalls = 1 ∧ ∀ pr ∈ s.delivered, pr.2 = ins := by
  obtain ⟨hc, _, hdel, hcase⟩ := sfReach_inv h
  refine ⟨?_, hdel⟩
  rw [hc]
  rcases hcase hne with hf | hs
  · rw [hf]
    rfl
  · rw [hs]
    simp

theorem score_single_flight_witness :
    sfDemo.externalCalls = 1 ∧ ∀ pr ∈ sfDemo.delivered, pr.2 = demoInsight :=
  score_single_flight demoInsight sfDemo
    (SFReach.step
      (SFReach.step
        (SFReach.step SFReach.init (SFStep.arriveStart sfInit 0 rfl rfl))
        (SFStep.arriveJoin _ 1 rfl rfl))
      (SFStep.complete _ rfl))
    (List.cons_ne_nil _ _)

/-! ## C6: assembler ranking -/

theorem rankGE_score_le {x y : RankedAlert} (h : rankGE x y) :
    y.insight.impact_score ≤ x.insight.impact_score := by
  rcases h with h | ⟨h, _⟩
  · exact le_of_lt h
  · exact le_of_eq h.symm

/-- C6: whenever a profile has at least one unexpired scored Insight, the
assembler returns as primary an eligible alert whose score is maximal, the
primary followed by the secondaries is sorted by score descending with ties
broken by more-recent publish time, and on the mock data with scores
[0.94, 0.78, 0.65] the primary scores 0.94 and the secondaries score
[0.78, 0.65] in that order. -/
theorem assembler_ranking :
    (∀ (st : Store) (p : UserProfile) (now bound : Nat),
       eligibleAlerts st (profileFingerprint p) now ≠ [] →
       ∃ pr, (assemble st p now bound).primary_alert = some pr ∧
         pr ∈ eligibleAlerts st (profileFingerprint p) now ∧
         ∀ x ∈ eligibleAlerts st (profileFingerprint p) now,
           x.insight.impact_score ≤ pr.insight.impact_score) ∧
    (∀ (st : Store) (p : UserProfile) (now bound : Nat),
       List.Sorted rankGE
         ((assemble st p now bound).primary_alert.toList ++
           (assemble st p now bound).secondary_alerts)) ∧
    ((assembleFp mockStore "abc123" 1000 5).primary_alert.map
        (fun x => x.insight.impact_score) = some (mkRat 94 100) ∧
      (assembleFp mockStore "abc123" 1000 5).secondary_alerts.map
        (fun x => x.insight.impact_score) = [mkRat 78 100, mkRat 65 100]) := by
  refine ⟨?_, ?_, ?_, ?_⟩
  · intro st p now bound hne
    set l := eligibleAlerts st (profileFingerprint p) now with hl
    have hsorted : List.Sorted rankGE (List.insertionSort rankGE l) :=
      List.sorted_insertionSort rankGE l
    have hranked : List.insertionSort rankGE l ≠ [] := by
      intro hnil
      apply hne
      have := List.perm_insertionSort rankGE l
      rw [hnil] at this
      exact this.symm.eq_nil
    obtain ⟨pr, rest, hcons⟩ := List.exists_cons_of_ne_nil hranked
    refine ⟨pr, ?_, ?_, ?_⟩
    · show (List.insertionSort rankGE l).head? = some pr
      rw [hcons]
      rfl
    · have : pr ∈ List.insertionSort rankGE l := by
        rw [hcons]; exact List.mem_cons_self _ _
      exact (List.mem_insertionSort rankGE).mp this
    · intro x hx
      have hx2 : x ∈ List.insertionSort rankGE l :=
        (List.mem_insertionSort rankGE).mpr hx
      rw [hcons] at hx2 hsorted
      rcases List.mem_cons.mp hx2 with rfl | hx2
      · exact le_refl _
      · exact rankGE_score_le (List.rel_of_sorted_cons hsorted x hx2)
  · intro st p now bound
    set l := eligibleAlerts st (profileFingerprint p) now with hl
    have hsorted : List.Sorted rankGE (List.insertionSort rankGE l) :=
      List.sorted_insertionSort rankGE l
    cases hcons : List.insertionSort rankGE l with
    | nil =>
      show List.Sorted rankGE
        (((List.insertionSort rankGE l).head?).toList ++
          ((List.insertionSort rankGE l).tail.take bound))
      rw [hcons]
      simp
    | cons pr rest =>
      show List.Sorted rankGE
        (((List.insertionSort rankGE l).head?).toList ++
          ((List.insertionSort rankGE l).tail.take bound))
      rw [hcons]
      have hsub : List.Sublist (pr :: rest.take bound) (pr :: rest) :=
        List.Sublist.cons₂ pr (List.take_sublist bound rest)
      rw [hcons] at hsorted
      show List.Sorted rankGE (pr :: rest.take bound)
      exact List.Pairwise.sublist hsub hsorted
  · decide
  · decide

theorem assembler_ranking_witness :
    ∃ pr, (assemble fpStore mockProfile 1000 5).primary_alert = some pr ∧
      pr ∈ eligibleAlerts fpStore (profileFingerprint mockProfile) 1000 ∧
      ∀ x ∈ eligibleAlerts fpStore (profileFingerprint mockProfile) 1000,
        x.insight.impact_score ≤ pr.insight.impact_score := by
  refine assembler_ranking.1 fpStore mockProfile 1000 5 ?_
  decide

/-! ## C7: unscored articles on the dashboard -/

theorem eligibleAlerts_mem {st : Store} {fp : String} {now : Nat}
    {x : RankedAlert} (hx : x ∈ eligibleAlerts st fp now) :
    x.insight ∈ st.insights ∧ x.insight.profile_hash = fp ∧
    x.insight.model_version = st.modelVersion ∧
    x.article.id = x.insight.article_id ∧ now < x.article.expires_at := by
  unfold eligibleAlerts at hx
  rcases List.mem_filterMap.mp hx with ⟨i, hi, hfi⟩
  by_cases hcond : (i.profile_hash == fp && i.model_version == st.modelVersion) = true
  · rw [if_pos hcond] at hfi
    cases hfind : st.articles.find? (fun a => a.id == i.article_id) with
    | none => rw [hfind] at hfi; exact absurd hfi (by simp)
    | some a =>
      rw [hfind] at hfi
      have hfi2 : (if now < a.expires_at then
          some ({ article := a, insight := i } : RankedAlert) else none) = some x := hfi
      by_cases hexp : now < a.expires_at
      · rw [if_pos hexp] at hfi2
        have hfa : a.id = i.article_id := by
          have := List.find?_some hfind
          simpa using this
        cases hfi2
        simp only [Bool.and_eq_true, beq_iff_eq] at hcond
        exact ⟨hi, hcond.1, hcond.2, hfa, hexp⟩
      · rw [if_neg hexp] at hfi2
        exact absurd hfi2 (by simp)
  · rw [if_neg hcond] at hfi
    exact absurd hfi (by simp)

/-- C7 counterexample: an article with no Insight yet (`processed = false`) is
not excluded from the dashboard: the template's recent-articles section
renders it, as a "Pending" entry. -/
theorem dashboard_pending_counterexample :
    pendingArticle.is_processed = false ∧
    ({ title := pendingArticle.title, badge := Badge.pending } : RecentEntry) ∈
      renderRecentArticles [pendingArticle] := by
  constructor
  · rfl
  · decide

/-- C7 amended: the assembler's alert list (primary and secondaries) excludes
any article with no matching Insight, and the read path is a pure function of
the store that never scores; the dashboard template, however, does render an
article without an Insight in its recent-articles section, as a "Pending"
entry rather than an error. -/
theorem dashboard_unscored_amended :
    (∀ (st : Store) (fp : String) (now bound : Nat) (a : Article),
       (∀ i ∈ st.insights,
          ¬(i.article_id = a.id ∧ i.profile_hash = fp ∧
            i.model_version = st.modelVersion)) →
       ∀ x ∈ (assembleFp st fp now bound).primary_alert.toList ++
           (assembleFp st fp now bound).secondary_alerts,
         x.article.id ≠ a.id) ∧
    (∀ (recent : List Article) (a : Article), a ∈ recent →
       a.is_processed = false →
       ({ title := a.title, badge := Badge.pending } : RecentEntry) ∈
         renderRecentArticles recent) := by
  constructor
  · intro st fp now bound a hno x hx
    have hx1 : x ∈ (List.insertionSort rankGE (eligibleAlerts st fp now)).head?.toList ++
        (List.insertionSort rankGE (eligibleAlerts st fp now)).tail.take bound := hx
    have hx2 : x ∈ List.insertionSort rankGE (eligibleAlerts st fp now) := by
      cases hcons : List.insertionSort rankGE (eligibleAlerts st fp now) with
      | nil =>
        rw [hcons] at hx1
        simp at hx1
      | cons pr rest =>
        rw [hcons] at hx1
        simp only [List.head?_cons, Option.toList_some, List.tail_cons,
          List.singleton_append, List.mem_cons] at hx1
        rcases hx1 with rfl | hx1
        · exact List.mem_cons_self _ _
        · exact List.mem_cons_of_mem pr (List.mem_of_mem_take hx1)
    have heli : x ∈ eligibleAlerts st fp now :=
      (List.mem_insertionSort rankGE).mp hx2
    obtain ⟨hmem, hhash, hmv, hid, _⟩ := eligibleAlerts_mem heli
    intro heq
    exact hno x.insight hmem ⟨by rw [← hid]; exact heq, hhash, hmv⟩
  · intro recent a ha hproc
    unfold renderRecentArticles
    exact List.mem_map.mpr ⟨a, ha, by simp [hproc]⟩

theorem dashboard_unscored_amended_witness :
    fpAlert.article.id ≠ pendingArticle.id ∧
    ({ title := pendingArticle.title, badge := Badge.pending } : RecentEntry) ∈
      renderRecentArticles [mockArticle1, pendingArticle] :=
  ⟨dashboard_unscored_amended.1 fpStore "technology:marketing:manager" 1000 5
      pendingArticle (by decide) fpAlert (by decide),
    dashboard_unscored_amended.2 [mockArticle1, pendingArticle] pendingArticle
      (by decide) rfl⟩

/-! ## C8: fingerprint depends only on the classification axes -/

/-- C8: the profile fingerprint is a deterministic function of exactly the
(industry, department, role level) axes: two profiles agreeing on these three
fields get the same fingerprint whatever their id, name, session or active
flag, and hence share the same cache partition for lookups. -/
theorem fingerprint_axes_only (p q : UserProfile)
    (h1 : p.industry = q.industry) (h2 : p.department = q.department)
    (h3 : p.role_level = q.role_level) :
    profileFingerprint p = profileFingerprint q ∧
    ∀ (st : Store) (aid : String),
      lookupInsight st aid (profileFingerprint p) =
        lookupInsight st aid (profileFingerprint q) := by
  have hf : profileFingerprint p = profileFingerprint q := by
    unfold profileFingerprint
    rw [h1, h2, h3]
  exact ⟨hf, fun st aid => by rw [hf]⟩

theorem fingerprint_axes_only_witness :
    profileFingerprint mockProfile = profileFingerprint mockProfile2 ∧
    lookupInsight fpStore "1" (profileFingerprint mockProfile) =
      lookupInsight fpStore "1" (profileFingerprint mockProfile2) :=
  ⟨(fingerprint_axes_only mockProfile mockProfile2 rfl rfl rfl).1,
    (fingerprint_axes_only mockProfile mockProfile2 rfl rfl rfl).2 fpStore "1"⟩

/-! ## C9: apiRequest error contract -/

/-- C9: `apiRequest` returns normally exactly when the HTTP response is ok;
a non-ok response surfaces as an `ApiError` whose status equals the HTTP
status code; body-read and network/timeout failures surface as an `ApiError`
with status 0; every error it produces is an `ApiError`; and each profile and
health operation is one `apiRequest` call, so their failures surface the same
way. -/
theorem apiRequest_error_contract :
    (∀ (endpoint : String) (o : FetchOutcome),
       ((∃ b, apiRequest endpoint o = .ok b) ↔
         ∃ resp, o = .success resp ∧ resp.ok = true) ∧
       (∀ resp, o = .success resp → resp.ok = false →
         apiRequest endpoint o =
           .error (mkApiError (errorMessageOf resp) resp.status)) ∧
       (∀ status ok, o = .bodyReadFailure status ok →
         apiRequest endpoint o =
           .error (mkApiError "Network error - please check your connection" 0)) ∧
       (∀ e, o = .networkFailure e →
         apiRequest endpoint o =
           .error (mkApiError "Network error - please check your connection" 0)) ∧
       (∀ e, apiRequest endpoint o = .error e → e.name = "ApiError")) ∧
    (∀ (profileId : String) (world : String → FetchOutcome),
       profileApi_getProfile profileId world =
         apiRequest ("/api/profiles/" ++ profileId)
           (world ("/api/profiles/" ++ profileId)) ∧
       profileApi_getProfileHash profileId world =
         apiRequest ("/api/profiles/" ++ profileId ++ "/hash")
           (world ("/api/profiles/" ++ profileId ++ "/hash")) ∧
       healthApi_checkHealth world = apiRequest "/health" (world "/health")) := by
  constructor
  · intro endpoint o
    refine ⟨?_, ?_, ?_, ?_, ?_⟩
    · constructor
      · rintro ⟨b, hb⟩
        cases o with
        | success resp =>
          refine ⟨resp, rfl, ?_⟩
          by_cases hok : resp.ok = true
          · exact hok
          · rw [Bool.not_eq_true] at hok
            simp [apiRequest, tryBlock, hok] at hb
        | bodyReadFailure s ok => simp [apiRequest, tryBlock] at hb
        | networkFailure e => simp [apiRequest, tryBlock] at hb
      · rintro ⟨resp, rfl, hok⟩
        exact ⟨resp.body, by simp [apiRequest, tryBlock, hok]⟩
    · rintro resp rfl hok
      simp [apiRequest, tryBlock, hok]
    · rintro status ok rfl
      simp [apiRequest, tryBlock]
    · rintro e rfl
      simp [apiRequest, tryBlock]
    · intro e he
      cases o with
      | success resp =>
        by_cases hok : resp.ok = true
        · simp [apiRequest, tryBlock, hok] at he
        · rw [Bool.not_eq_true] at hok
          simp [apiRequest, tryBlock, hok] at he
          rw [← he]
          rfl
      | bodyReadFailure s ok =>
        simp [apiRequest, tryBlock] at he
        rw [← he]
        rfl
      | networkFailure msg =>
        simp [apiRequest, tryBlock] at he
        rw [← he]
        rfl
  · intro profileId world
    exact ⟨rfl, rfl, rfl⟩

theorem apiRequest_error_contract_witness :
    apiRequest "/health" (.success notFoundResp) =
      .error (mkApiError (errorMessageOf notFoundResp) notFoundResp.status) ∧
    apiRequest "/health" (.networkFailure "timeout") =
      .error (mkApiError "Network error - please check your connection" 0) :=
  ⟨(apiRequest_error_contract.1 "/health" (.success notFoundResp)).2.1
      notFoundResp rfl rfl,
    (apiRequest_error_contract.1 "/health" (.networkFailure "timeout")).2.2.2.1
      "timeout" rfl⟩

/-! ## C10: StatsBar progress-bar widths -/

/-- C10 counterexample: with stats input (threats 3, total alerts 0) the
threats progress-bar width evaluates to the finite number 100 — JavaScript
gives `3 / 0 = Infinity` and `Math.min(Infinity, 100) = 100` — not to NaN as
the claim states for every zero-total input. -/
theorem statsbar_zero_total_counterexample :
    (statsBarWidths
        { threats := 3, opportunities := 0, watch := 0, total_alerts := 0 }).1 =
      JSNum.num 100 ∧
    JSNum.num 100 ≠ JSNum.nan := by
  constructor
  · rfl
  · decide

/-- C10 amended: for total_alerts > 0 each per-category width equals
`min((value / total_alerts) * 100, 100)` and is a finite number in [0, 100];
for total_alerts = 0 the unguarded division makes the width NaN when the
category value is 0 (`0 / 0`), and 100 when the value is positive
(`value / 0 = Infinity`, capped by `Math.min`) — in neither case 0. -/
theorem statsbar_width_formula :
    (∀ (value total : Nat), 0 < total →
       statWidth value total =
         JSNum.num (min ((value : Rat) / (total : Rat) * 100) 100) ∧
       ∃ q : Rat, statWidth value total = JSNum.num q ∧ 0 ≤ q ∧ q ≤ 100) ∧
    (∀ s : DashboardStats, 0 < s.total_alerts →
       statsBarWidths s =
         (JSNum.num (min ((s.threats : Rat) / (s.total_alerts : Rat) * 100) 100),
          JSNum.num (min ((s.opportunities : Rat) / (s.total_alerts : Rat) * 100) 100),
          JSNum.num (min ((s.watch : Rat) / (s.total_alerts : Rat) * 100) 100))) ∧
    (∀ value : Nat, statWidth value 0 =
       (if value = 0 then JSNum.nan else JSNum.num 100)) := by
  have hsingle : ∀ (value total : Nat), 0 < total →
      statWidth value total =
        JSNum.num (min ((value : Rat) / (total : Rat) * 100) 100) := by
    intro value total h
    have ht : total ≠ 0 := Nat.pos_iff_ne_zero.mp h
    simp [statWidth, jsDivNat, jsMul100, jsMin, ht]
  refine ⟨?_, ?_, ?_⟩
  · intro value total h
    refine ⟨hsingle value total h, min ((value : Rat) / (total : Rat) * 100) 100,
      hsingle value total h, ?_, min_le_right _ _⟩
    refine le_min ?_ (by norm_num)
    positivity
  · intro s h
    show (statWidth s.threats s.total_alerts, statWidth s.opportunities s.total_alerts,
      statWidth s.watch s.total_alerts) = _
    rw [hsingle s.threats s.total_alerts h, hsingle s.opportunities s.total_alerts h,
      hsingle s.watch s.total_alerts h]
  · intro value
    by_cases hv : value = 0
    · simp [statWidth, jsDivNat, jsMul100, jsMin, hv]
    · simp [statWidth, jsDivNat, jsMul100, jsMin, hv]

theorem statsbar_width_formula_witness :
    statWidth 3 4 = JSNum.num (min ((3 : Rat) / (4 : Rat) * 100) 100) ∧
    statWidth 5 0 = (if (5 : Nat) = 0 then JSNum.nan else JSNum.num 100) :=
  ⟨((statsbar_width_formula.1 3 4 (by decide)).1 : _),
    statsbar_width_formula.2.2 5⟩

end WolfAlert
